import Mathlib

/-!
# Verification of the gate-access decision engine (`main.py`)

A shallow embedding of the core logic of the plate-recognition gate server:
plate normalization (`clean_plate`), fuzzy plate matching (`fuzzy_match`),
per-tenant authorization (`is_authorized`), the cooldown gate
(`can_open_gate`), the webhook trigger (`trigger_gate`) and the per-request
detection pipeline loop of the `/detect` endpoint (`detect_plate`).

Python floats (timestamps, scores) are modelled as rationals `ℚ`; the
in-memory customer dict is modelled as an association list with unique-key
dictionary semantics (`Registry.get` returns the first binding,
`Registry.set` overwrites in place).  The two external collaborators are
modelled by their observable outcomes: the recognition service by the list
of `(plate, confidence)` candidates it returned, and the webhook POST by a
`WebhookOutcome` (a transport error, or an HTTP response with a status
code).  Each `time.time()` call made while processing one candidate is an
explicit input (`tCheck` for the call inside `can_open_gate`, `tTrig` for
the call inside `trigger_gate`).
-/

namespace Plate

/-- The characters kept by `clean_plate`: the regex class `[A-Z0-9]`. -/
def isPlateChar (c : Char) : Bool :=
  ('A' ≤ c && c ≤ 'Z') || ('0' ≤ c && c ≤ '9')

/-- `clean_plate(text)`: uppercase, then drop every character outside
`[A-Z0-9]` (`re.sub(r'[^A-Z0-9]', '', str(text).upper())`).  The result is
kept as a list of characters. -/
def clean_plate (s : String) : List Char :=
  (s.data.map Char.toUpper).filter isPlateChar

/-- `sum(1 for a, b in zip(detected, authorized) if a == b)`: the number of
positions, up to the shorter length, where the two strings agree. -/
def countEqual : List Char → List Char → Nat
  | a :: as, b :: bs => (if a = b then 1 else 0) + countEqual as bs
  | _, _ => 0

/-- Python's `needle in haystack` on strings: contiguous substring
containment (the empty needle is contained in everything). -/
def isSubstringOf (n : List Char) : List Char → Bool
  | [] => n.isEmpty
  | c :: t => n.isPrefixOf (c :: t) || isSubstringOf n t

/-- `similarity = (matches / max(len(detected), len(authorized))) * 100`. -/
def similarity (d a : List Char) : ℚ :=
  ((countEqual d a : ℚ) / (max d.length a.length : ℚ)) * 100

/-- The body of `fuzzy_match` after both arguments have been cleaned:
exact match (100), the two directional substring rules (80, needle length
at least 6), the positional-similarity rule (threshold 70), else
`(False, 0)`. -/
def fmCore (d a : List Char) : Bool × ℚ :=
  if d = a then (true, 100)
  else if 6 ≤ d.length ∧ isSubstringOf d a then (true, 80)
  else if 6 ≤ a.length ∧ isSubstringOf a d then (true, 80)
  else if 0 < d.length ∧ 0 < a.length then
    if 70 ≤ similarity d a then (true, similarity d a) else (false, 0)
  else (false, 0)

/-- `fuzzy_match(detected, authorized)` of `main.py`. -/
def fuzzy_match (detected authorized : String) : Bool × ℚ :=
  fmCore (clean_plate detected) (clean_plate authorized)

/-- One customer record of the in-memory `customers` dict.  `webhook_url`
is `none` when the key is absent; the Python code also treats the empty
string as missing (`if not webhook_url`). -/
structure Customer where
  webhook_url : Option String
  authorized_plates : List String
  cooldown_seconds : ℚ
  cooldown_end : ℚ
  created_at : String
deriving DecidableEq

/-- The `customers` dict: an association list with unique-key dictionary
semantics. -/
abbrev Registry := List (String × Customer)

/-- Dictionary lookup: the first binding of the key, if any. -/
def Registry.get : Registry → String → Option Customer
  | [], _ => none
  | p :: ps, cid => if p.1 = cid then some p.2 else Registry.get ps cid

/-- Dictionary assignment to an existing key: every binding of `cid` is
overwritten in place, other bindings are untouched. -/
def Registry.set : Registry → String → Customer → Registry
  | [], _, _ => []
  | p :: ps, cid, c => (if p.1 = cid then (cid, c) else p) :: Registry.set ps cid c

/-- The scan loop of `is_authorized`: return on the first authorized-list
entry for which `fuzzy_match` is true, with that match's confidence. -/
def isAuthPlates (d : String) : List String → Bool × Option String × ℚ
  | [] => (false, none, 0)
  | p :: ps =>
    if (fuzzy_match d p).1 then (true, some p, (fuzzy_match d p).2)
    else isAuthPlates d ps

/-- `is_authorized(customer_id, detected_plate)` of `main.py`. -/
def is_authorized (r : Registry) (cid : String) (detected_plate : String) :
    Bool × Option String × ℚ :=
  match Registry.get r cid with
  | none => (false, none, 0)
  | some c => isAuthPlates detected_plate c.authorized_plates

/-- `can_open_gate(customer_id)` of `main.py`; `current_time` is the value
`time.time()` returned during the call. -/
def can_open_gate (r : Registry) (cid : String) (current_time : ℚ) : Bool :=
  match Registry.get r cid with
  | none => false
  | some c => decide (c.cooldown_end < current_time)

/-- The observable outcome of the webhook `requests.post` call: a raised
transport/timeout exception, or an HTTP response with a status code. -/
inductive WebhookOutcome
  | err : WebhookOutcome
  | status : Nat → WebhookOutcome
deriving DecidableEq

/-- What one call of `trigger_gate` did: its boolean return value and the
registry afterwards, plus two ghost observations used only to state
properties: whether the `requests.post` call was reached (a webhook
delivery attempt was made) and whether `cooldown_end` was assigned. -/
structure TriggerResult where
  success : Bool
  registry : Registry
  posted : Bool
  wroteCooldown : Bool
deriving DecidableEq

/-- `trigger_gate(customer_id, plate)` of `main.py`; `now` is the value the
`time.time()` call inside the function returned.  The `plate` argument only
feeds the webhook payload, so it does not appear here.  Note the source
assigns `cooldown_end` BEFORE testing the response status, so any HTTP
response — success or not — updates the cooldown; only a raised exception
leaves it unchanged. -/
def trigger_gate (r : Registry) (cid : String) (outcome : WebhookOutcome) (now : ℚ) :
    TriggerResult :=
  match Registry.get r cid with
  | none => ⟨false, r, false, false⟩
  | some c =>
    match c.webhook_url with
    | none => ⟨false, r, false, false⟩
    | some u =>
      if u = "" then ⟨false, r, false, false⟩
      else
        match outcome with
        | .err => ⟨false, r, true, false⟩
        | .status code =>
          ⟨code = 200 ∨ code = 201 ∨ code = 204,
            Registry.set r cid { c with cooldown_end := now + c.cooldown_seconds },
            true, true⟩

/-- One candidate of the recognition result together with the environment
of its loop iteration: the two `time.time()` values and the webhook
outcome that would be observed if the trigger is attempted. -/
structure Cand where
  plate : String
  confidence : ℚ
  tCheck : ℚ
  tTrig : ℚ
  outcome : WebhookOutcome
deriving DecidableEq

/-- The request-scoped state of the `/detect` loop.  `attempts`,
`successes` and `cooldownWrites` are ghost counters of what the iterations
did (webhook POSTs reached, `True` returns of `trigger_gate`, assignments
of `cooldown_end`); the rest mirrors the Python locals and the shared
`customers` dict. -/
structure DetectState where
  registry : Registry
  detected_plates : List (String × ℚ)
  gate_triggered : Bool
  matched_plate : Option String
  attempts : Nat
  successes : Nat
  cooldownWrites : Nat
deriving DecidableEq

/-- One iteration of the `for result in api_result.get('results', [])`
loop of `detect_plate`: append to `detected_plates`, resolve
authorization, and when `is_auth and can_open_gate(customer_id) and not
gate_triggered` attempt the trigger; on success set `gate_triggered` and
`matched_plate`. -/
def detectStep (cid : String) (s : DetectState) (cd : Cand) : DetectState :=
  let s1 : DetectState :=
    { s with detected_plates := s.detected_plates ++ [(cd.plate, cd.confidence)] }
  let auth := is_authorized s.registry cid cd.plate
  if auth.1 && can_open_gate s.registry cid cd.tCheck && !s.gate_triggered then
    let tr := trigger_gate s.registry cid cd.outcome cd.tTrig
    let s2 : DetectState :=
      { s1 with
        registry := tr.registry
        attempts := s1.attempts + (if tr.posted then 1 else 0)
        successes := s1.successes + (if tr.success then 1 else 0)
        cooldownWrites := s1.cooldownWrites + (if tr.wroteCooldown then 1 else 0) }
    if tr.success then { s2 with gate_triggered := true, matched_plate := auth.2.1 }
    else s2
  else s1

/-- The loop state at entry of the loop of `detect_plate`. -/
def initState (r : Registry) : DetectState := ⟨r, [], false, none, 0, 0, 0⟩

/-- The candidate-processing part of the `/detect` endpoint: `none` models
the early `404 Unknown customer_id` return, otherwise the loop runs over
all candidates. -/
def detect_plate (r : Registry) (cid : String) (cands : List Cand) :
    Option DetectState :=
  match Registry.get r cid with
  | none => none
  | some _ => some (cands.foldl (detectStep cid) (initState r))

/-- The fields of a customer record other than the cooldown timestamp:
everything the detection path must leave unchanged. -/
def frameOf (c : Customer) : Option String × List String × ℚ × String :=
  (c.webhook_url, c.authorized_plates, c.cooldown_seconds, c.created_at)

/-! ## Helper lemmas -/

theorem frameOf_components {c c' : Customer} (h : frameOf c' = frameOf c) :
    c'.webhook_url = c.webhook_url ∧ c'.authorized_plates = c.authorized_plates ∧
      c'.cooldown_seconds = c.cooldown_seconds ∧ c'.created_at = c.created_at := by
  simpa [frameOf, Prod.ext_iff] using h

theorem Registry.get_set_self (r : Registry) (cid : String) (c c₀ : Customer)
    (h : Registry.get r cid = some c₀) :
    Registry.get (Registry.set r cid c) cid = some c := by
  induction r with
  | nil => simp [Registry.get] at h
  | cons p ps ih =>
    by_cases hp : p.1 = cid
    · simp [Registry.set, Registry.get, hp]
    · rw [Registry.get, if_neg hp] at h
      simp [Registry.set, Registry.get, hp, ih h]

theorem Registry.get_set_ne (r : Registry) (cid cid' : String) (c : Customer)
    (h : cid' ≠ cid) :
    Registry.get (Registry.set r cid c) cid' = Registry.get r cid' := by
  induction r with
  | nil => rfl
  | cons p ps ih =>
    by_cases hp : p.1 = cid
    · have hne : ¬ (cid = cid') := fun hh => h hh.symm
      have hne' : ¬ (p.1 = cid') := hp ▸ hne
      simp [Registry.set, Registry.get, hp, hne, hne', ih]
    · simp [Registry.set, Registry.get, hp, ih]

theorem countEqual_comm (d t : List Char) : countEqual d t = countEqual t d := by
  induction d generalizing t with
  | nil => cases t <;> simp [countEqual]
  | cons a as ih =>
    cases t with
    | nil => simp [countEqual]
    | cons b bs =>
      rw [countEqual, countEqual, ih]
      by_cases hab : a = b
      · simp [hab]
      · have hba : ¬ b = a := fun hh => hab hh.symm
        simp [hab, hba]

theorem countEqual_countP (d t : List Char) :
    countEqual d t =
      (List.range (min d.length t.length)).countP (fun i => decide (d[i]? = t[i]?)) := by
  induction d generalizing t with
  | nil => simp [countEqual]
  | cons a as ih =>
    cases t with
    | nil => simp [countEqual]
    | cons b bs =>
      have hmin : min (a :: as).length (b :: bs).length = min as.length bs.length + 1 := by
        simp [List.length_cons, Nat.succ_min_succ]
      have hps : ((fun i => decide ((a :: as)[i]? = (b :: bs)[i]?)) ∘ Nat.succ)
          = fun i => decide (as[i]? = bs[i]?) := by
        funext i
        simp
      rw [countEqual, hmin, List.range_succ_eq_map, List.countP_cons, List.countP_map,
        hps, ← ih]
      by_cases hab : a = b <;> simp [hab, Nat.add_comm]

theorem isSubstringOf_true_iff (n h : List Char) :
    isSubstringOf n h = true ↔ n <:+: h := by
  induction h with
  | nil => simp [isSubstringOf, List.isEmpty_iff, List.infix_nil]
  | cons c t ih =>
    simp [isSubstringOf, Bool.or_eq_true, ih, List.infix_cons_iff,
      List.isPrefixOf_iff_prefix]

theorem similarity_comm (d t : List Char) : similarity d t = similarity t d := by
  rw [similarity, similarity, countEqual_comm, max_comm]

theorem fmCore_comm (d t : List Char) : fmCore d t = fmCore t d := by
  by_cases h1 : d = t
  · subst h1; rfl
  · have h1' : ¬ t = d := fun h => h1 h.symm
    rw [fmCore, fmCore, if_neg h1, if_neg h1']
    by_cases h2 : 6 ≤ d.length ∧ isSubstringOf d t
    · by_cases h3 : 6 ≤ t.length ∧ isSubstringOf t d
      · rw [if_pos h2, if_pos h3]
      · rw [if_pos h2, if_neg h3, if_pos h2]
    · by_cases h3 : 6 ≤ t.length ∧ isSubstringOf t d
      · rw [if_neg h2, if_pos h3, if_pos h3]
      · rw [if_neg h2, if_neg h3, if_neg h3, if_neg h2]
        by_cases h4 : 0 < d.length ∧ 0 < t.length
        · have h4' : 0 < t.length ∧ 0 < d.length := ⟨h4.2, h4.1⟩
          rw [if_pos h4, if_pos h4', similarity_comm]
        · have h4' : ¬ (0 < t.length ∧ 0 < d.length) := fun h => h4 ⟨h.2, h.1⟩
          rw [if_neg h4, if_neg h4']

theorem isAuthPlates_eq_find (d : String) (ps : List String) :
    isAuthPlates d ps =
      match ps.find? (fun p => (fuzzy_match d p).1) with
      | none => (false, none, 0)
      | some p => (true, some p, (fuzzy_match d p).2) := by
  induction ps with
  | nil => rfl
  | cons p ps ih =>
    rw [isAuthPlates, List.find?_cons]
    by_cases h : (fuzzy_match d p).1
    · simp [h]
    · simp [h, ih]

theorem detectStep_of_triggered (cid : String) (s : DetectState) (cd : Cand)
    (h : s.gate_triggered = true) :
    detectStep cid s cd =
      { s with detected_plates := s.detected_plates ++ [(cd.plate, cd.confidence)] } := by
  simp [detectStep, h]

theorem foldl_detectStep_of_triggered (cid : String) (l : List Cand) (s : DetectState)
    (h : s.gate_triggered = true) :
    l.foldl (detectStep cid) s =
      { s with detected_plates :=
          s.detected_plates ++ l.map (fun cd => (cd.plate, cd.confidence)) } := by
  induction l generalizing s with
  | nil => simp
  | cons cd l ih =>
    rw [List.foldl_cons, detectStep_of_triggered cid s cd h,
      ih { s with detected_plates := s.detected_plates ++ [(cd.plate, cd.confidence)] } h]
    simp

theorem detectStep_succ_inv (cid : String) (s : DetectState) (cd : Cand)
    (h : s.successes = if s.gate_triggered then 1 else 0) :
    (detectStep cid s cd).successes =
      if (detectStep cid s cd).gate_triggered then 1 else 0 := by
  cases htr : s.gate_triggered with
  | true => rw [detectStep_of_triggered cid s cd htr]; simpa [htr] using h
  | false =>
    rw [htr] at h
    simp only [detectStep, htr, Bool.not_false, Bool.and_true]
    split
    · split
      next hsucc => simp [h, hsucc]
      next hsucc => simp [h, htr, Bool.eq_false_iff.mpr hsucc]
    · simp [h, htr]

theorem foldl_succ_inv (cid : String) (l : List Cand) (s : DetectState)
    (h : s.successes = if s.gate_triggered then 1 else 0) :
    (l.foldl (detectStep cid) s).successes =
      if (l.foldl (detectStep cid) s).gate_triggered then 1 else 0 := by
  induction l generalizing s with
  | nil => simpa
  | cons cd l ih => exact ih _ (detectStep_succ_inv cid s cd h)

theorem trigger_gate_frame (r : Registry) (cid : String) (o : WebhookOutcome) (now : ℚ)
    (cid' : String) :
    (Registry.get (trigger_gate r cid o now).registry cid').map frameOf =
      (Registry.get r cid').map frameOf := by
  cases hg : Registry.get r cid with
  | none => simp [trigger_gate, hg]
  | some c =>
    cases hu : c.webhook_url with
    | none => simp [trigger_gate, hg, hu]
    | some u =>
      by_cases hue : u = ""
      · simp [trigger_gate, hg, hu, hue]
      · cases o with
        | err => simp [trigger_gate, hg, hu, hue]
        | status code =>
          simp only [trigger_gate, hg, hu, if_neg hue]
          by_cases hc : cid' = cid
          · subst hc
            rw [Registry.get_set_self _ _ _ c hg, hg]
            simp [frameOf, hu]
          · rw [Registry.get_set_ne _ _ _ _ hc]

theorem detectStep_registry (cid : String) (s : DetectState) (cd : Cand) :
    (detectStep cid s cd).registry =
      if (is_authorized s.registry cid cd.plate).1 && can_open_gate s.registry cid cd.tCheck
          && !s.gate_triggered then
        (trigger_gate s.registry cid cd.outcome cd.tTrig).registry
      else s.registry := by
  simp only [detectStep]
  split
  · split <;> rfl
  · rfl

theorem detectStep_frame (cid : String) (s : DetectState) (cd : Cand) (cid' : String) :
    (Registry.get (detectStep cid s cd).registry cid').map frameOf =
      (Registry.get s.registry cid').map frameOf := by
  rw [detectStep_registry]
  split
  · exact trigger_gate_frame _ _ _ _ _
  · rfl

theorem foldl_frame (cid : String) (l : List Cand) (s : DetectState) (cid' : String) :
    (Registry.get (l.foldl (detectStep cid) s).registry cid').map frameOf =
      (Registry.get s.registry cid').map frameOf := by
  induction l generalizing s with
  | nil => rfl
  | cons cd l ih => rw [List.foldl_cons, ih, detectStep_frame]

theorem trigger_gate_cooldown_mono (r : Registry) (cid : String) (o : WebhookOutcome)
    (now : ℚ) (c : Customer) (h : Registry.get r cid = some c)
    (hcs : 0 ≤ c.cooldown_seconds) (hle : c.cooldown_end ≤ now) :
    ∃ c', Registry.get (trigger_gate r cid o now).registry cid = some c' ∧
      c.cooldown_end ≤ c'.cooldown_end ∧ frameOf c' = frameOf c := by
  cases hu : c.webhook_url with
  | none => exact ⟨c, by simp [trigger_gate, h, hu], le_refl _, rfl⟩
  | some u =>
    by_cases hue : u = ""
    · exact ⟨c, by simp [trigger_gate, h, hu, hue], le_refl _, rfl⟩
    · cases o with
      | err => exact ⟨c, by simp [trigger_gate, h, hu, hue], le_refl _, rfl⟩
      | status code =>
        refine ⟨{ c with cooldown_end := now + c.cooldown_seconds }, ?_, ?_, rfl⟩
        · simp only [trigger_gate, h, hu, if_neg hue]
          exact Registry.get_set_self _ _ _ c h
        · calc c.cooldown_end ≤ now := hle
            _ ≤ now + c.cooldown_seconds := le_add_of_nonneg_right hcs

theorem can_open_gate_true_iff (r : Registry) (cid : String) (t : ℚ) (c : Customer)
    (h : Registry.get r cid = some c) :
    can_open_gate r cid t = true ↔ c.cooldown_end < t := by
  simp [can_open_gate, h]

theorem detectStep_cooldown_mono (cid : String) (s : DetectState) (cd : Cand) (c : Customer)
    (h : Registry.get s.registry cid = some c) (hcs : 0 ≤ c.cooldown_seconds)
    (ht : cd.tCheck ≤ cd.tTrig) :
    ∃ c', Registry.get (detectStep cid s cd).registry cid = some c' ∧
      c.cooldown_end ≤ c'.cooldown_end ∧ frameOf c' = frameOf c := by
  rw [detectStep_registry]
  split
  next hcond =>
    have hopen : can_open_gate s.registry cid cd.tCheck = true := by
      have h1 := (Bool.and_eq_true _ _).mp hcond
      have h2 := (Bool.and_eq_true _ _).mp h1.1
      exact h2.2
    have hlt : c.cooldown_end < cd.tCheck :=
      (can_open_gate_true_iff _ _ _ _ h).mp hopen
    exact trigger_gate_cooldown_mono _ _ _ _ _ h hcs (le_trans (le_of_lt hlt) ht)
  next => exact ⟨c, h, le_refl _, rfl⟩

theorem foldl_cooldown_mono (cid : String) (l : List Cand) (s : DetectState) (c : Customer)
    (h : Registry.get s.registry cid = some c) (hcs : 0 ≤ c.cooldown_seconds)
    (ht : ∀ cd ∈ l, cd.tCheck ≤ cd.tTrig) :
    ∃ c', Registry.get (l.foldl (detectStep cid) s).registry cid = some c' ∧
      c.cooldown_end ≤ c'.cooldown_end ∧ frameOf c' = frameOf c := by
  induction l generalizing s c with
  | nil => exact ⟨c, h, le_refl _, rfl⟩
  | cons cd l ih =>
    obtain ⟨c1, h1, hle1, hf1⟩ :=
      detectStep_cooldown_mono cid s cd c h hcs (ht cd (by simp))
    have hcs1 : 0 ≤ c1.cooldown_seconds := by
      rw [(frameOf_components hf1).2.2.1]; exact hcs
    obtain ⟨c2, h2, hle2, hf2⟩ :=
      ih (detectStep cid s cd) c1 h1 hcs1 (fun x hx => ht x (by simp [hx]))
    exact ⟨c2, by simpa using h2, le_trans hle1 hle2, by rw [hf2, hf1]⟩

theorem detect_plate_eq_foldl (r : Registry) (cid : String) (cands : List Cand)
    (st : DetectState) (h : detect_plate r cid cands = some st) :
    st = cands.foldl (detectStep cid) (initState r) := by
  rw [detect_plate] at h
  cases hg : Registry.get r cid with
  | none => rw [hg] at h; cases h
  | some c0 => rw [hg] at h; exact (Option.some_inj.mp h).symm

theorem fmCore_similarity_branch (d t : List Char) (hne : d ≠ t)
    (h1 : ¬ (6 ≤ d.length ∧ isSubstringOf d t))
    (h2 : ¬ (6 ≤ t.length ∧ isSubstringOf t d)) :
    fmCore d t =
      if 0 < d.length ∧ 0 < t.length then
        if 70 ≤ similarity d t then (true, similarity d t) else (false, 0)
      else (false, 0) := by
  rw [fmCore, if_neg hne, if_neg h1, if_neg h2]

theorem similarity_example :
    similarity (clean_plate "AB12CD1") (clean_plate "AB12XX1") = 500 / 7 := by
  have hc : countEqual (clean_plate "AB12CD1") (clean_plate "AB12XX1") = 5 := by decide
  have hd : (clean_plate "AB12CD1").length = 7 := by decide
  have ha : (clean_plate "AB12XX1").length = 7 := by decide
  rw [similarity, hc, hd, ha]
  norm_num

/-! ## The claims -/

/-- Claim C3: `fuzzy_match` applies its rules in fixed precedence with the
first satisfied rule determining the result — equal cleaned strings give
`(true, 100)`; otherwise a cleaned needle of length at least 6 that is a
contiguous substring of the other side (either direction) gives
`(true, 80)`; otherwise the positional-similarity rule decides; otherwise
the result is `(false, 0)`.  No rule combination or maximization across
rules occurs. -/
theorem C3_rule_precedence (a b : String) :
    (clean_plate a = clean_plate b → fuzzy_match a b = (true, 100)) ∧
    (clean_plate a ≠ clean_plate b →
      ((6 ≤ (clean_plate a).length ∧ clean_plate a <:+: clean_plate b) ∨
        (6 ≤ (clean_plate b).length ∧ clean_plate b <:+: clean_plate a)) →
      fuzzy_match a b = (true, 80)) ∧
    (clean_plate a ≠ clean_plate b →
      ¬ (6 ≤ (clean_plate a).length ∧ clean_plate a <:+: clean_plate b) →
      ¬ (6 ≤ (clean_plate b).length ∧ clean_plate b <:+: clean_plate a) →
      0 < (clean_plate a).length → 0 < (clean_plate b).length →
      70 ≤ similarity (clean_plate a) (clean_plate b) →
      fuzzy_match a b = (true, similarity (clean_plate a) (clean_plate b))) ∧
    (clean_plate a ≠ clean_plate b →
      ¬ (6 ≤ (clean_plate a).length ∧ clean_plate a <:+: clean_plate b) →
      ¬ (6 ≤ (clean_plate b).length ∧ clean_plate b <:+: clean_plate a) →
      ¬ (0 < (clean_plate a).length ∧ 0 < (clean_plate b).length ∧
          70 ≤ similarity (clean_plate a) (clean_plate b)) →
      fuzzy_match a b = (false, 0)) := by
  have hs1 := isSubstringOf_true_iff (clean_plate a) (clean_plate b)
  have hs2 := isSubstringOf_true_iff (clean_plate b) (clean_plate a)
  refine ⟨?_, ?_, ?_, ?_⟩
  · intro h
    rw [fuzzy_match, fmCore, if_pos h]
  · intro hne hor
    rw [fuzzy_match, fmCore, if_neg hne]
    rcases hor with ⟨hlen, hinf⟩ | ⟨hlen, hinf⟩
    · rw [if_pos ⟨hlen, hs1.mpr hinf⟩]
    · by_cases hx : 6 ≤ (clean_plate a).length ∧ isSubstringOf (clean_plate a) (clean_plate b)
      · rw [if_pos hx]
      · rw [if_neg hx, if_pos ⟨hlen, hs2.mpr hinf⟩]
  · intro hne h1 h2 hd ht hsim
    rw [fuzzy_match,
      fmCore_similarity_branch _ _ hne (fun hc => h1 ⟨hc.1, hs1.mp hc.2⟩)
        (fun hc => h2 ⟨hc.1, hs2.mp hc.2⟩),
      if_pos ⟨hd, ht⟩, if_pos hsim]
  · intro hne h1 h2 hrest
    rw [fuzzy_match,
      fmCore_similarity_branch _ _ hne (fun hc => h1 ⟨hc.1, hs1.mp hc.2⟩)
        (fun hc => h2 ⟨hc.1, hs2.mp hc.2⟩)]
    by_cases hd : 0 < (clean_plate a).length ∧ 0 < (clean_plate b).length
    · rw [if_pos hd, if_neg (fun hsim => hrest ⟨hd.1, hd.2, hsim⟩)]
    · rw [if_neg hd]

/-- Claim C3 witness: on the concrete pair of the spec's own test vector,
rule 2 fires through the precedence theorem. -/
theorem C3_witness : fuzzy_match "AB12CD" "ab 12-cd" = (true, 100) :=
  (C3_rule_precedence "AB12CD" "ab 12-cd").1 (by decide)

/-- Claim C4 counterexample: the spec's worked example is mis-counted.  On
`"AB12CD1"` vs `"AB12XX1"` exactly 5 of 7 positions agree (positions 4 and
5, `C`/`D` vs `X`/`X`, differ), so the score is `500/7 ≈ 71.4`, not
`6/7 · 100 ≈ 85.7` as the claim states. -/
theorem C4_counterexample :
    countEqual (clean_plate "AB12CD1") (clean_plate "AB12XX1") = 5 ∧
    fuzzy_match "AB12CD1" "AB12XX1" = (true, 500 / 7) ∧
    ¬ ((500 : ℚ) / 7 = (6 / 7) * 100) := by
  refine ⟨by decide, ?_, by norm_num⟩
  rw [fuzzy_match, fmCore, if_neg (by decide), if_neg (by decide), if_neg (by decide),
    if_pos (by decide), similarity_example,
    if_pos (by norm_num : (70 : ℚ) ≤ 500 / 7)]

/-- Claim C4 (amended): the positional-similarity rule counts the positions
`i` (up to the shorter cleaned length) where the strings agree, divides by
the longer length and multiplies by 100, and a similarity of at least 70 is
a match with that similarity as score; on `"AB12CD1"` vs `"AB12XX1"` 5 of 7
positions agree, so the result is a match with score `500/7 ≈ 71.4`. -/
theorem C4_positional_rule :
    (∀ d t : List Char, countEqual d t =
      (List.range (min d.length t.length)).countP (fun i => decide (d[i]? = t[i]?))) ∧
    (∀ a b : String,
      clean_plate a ≠ clean_plate b →
      ¬ (6 ≤ (clean_plate a).length ∧ clean_plate a <:+: clean_plate b) →
      ¬ (6 ≤ (clean_plate b).length ∧ clean_plate b <:+: clean_plate a) →
      0 < (clean_plate a).length → 0 < (clean_plate b).length →
      70 ≤ similarity (clean_plate a) (clean_plate b) →
      fuzzy_match a b = (true, similarity (clean_plate a) (clean_plate b))) ∧
    countEqual (clean_plate "AB12CD1") (clean_plate "AB12XX1") = 5 ∧
    fuzzy_match "AB12CD1" "AB12XX1" = (true, 500 / 7) ∧
    (70 : ℚ) ≤ 500 / 7 := by
  refine ⟨countEqual_countP, ?_, by decide, ?_, by norm_num⟩
  · intro a b hne h1 h2 hd ht hsim
    have hs1 := isSubstringOf_true_iff (clean_plate a) (clean_plate b)
    have hs2 := isSubstringOf_true_iff (clean_plate b) (clean_plate a)
    rw [fuzzy_match,
      fmCore_similarity_branch _ _ hne (fun hc => h1 ⟨hc.1, hs1.mp hc.2⟩)
        (fun hc => h2 ⟨hc.1, hs2.mp hc.2⟩),
      if_pos ⟨hd, ht⟩, if_pos hsim]
  · rw [fuzzy_match, fmCore, if_neg (by decide), if_neg (by decide), if_neg (by decide),
      if_pos (by decide), similarity_example,
      if_pos (by norm_num : (70 : ℚ) ≤ 500 / 7)]

/-- Claim C5: `is_authorized` scans the tenant's `authorized_plates` in
list order and returns the first entry that fuzzy-matches (with that
match's score) — `List.find?` semantics, not a maximum over scores; an
unknown tenant, or no matching entry, yields `(false, none, 0)`. -/
theorem C5_first_match (r : Registry) (cid : String) (d : String) :
    is_authorized r cid d =
      match Registry.get r cid with
      | none => (false, none, 0)
      | some c =>
        match c.authorized_plates.find? (fun p => (fuzzy_match d p).1) with
        | none => (false, none, 0)
        | some p => (true, some p, (fuzzy_match d p).2) := by
  cases h : Registry.get r cid with
  | none => simp [is_authorized, h]
  | some c => simp [is_authorized, h, isAuthPlates_eq_find]

/-- Claim C8: both inputs cleaning to the empty string hit the exact-match
rule and yield `(true, 100)` — the literal behavior is preserved. -/
theorem C8_empty_strings : fuzzy_match "" "" = (true, 100) ∧ clean_plate "" = [] :=
  ⟨by rw [fuzzy_match, fmCore, if_pos rfl], rfl⟩

/-- Claim C10: `fuzzy_match` is symmetric as a whole function — the exact
rule, the pair of directional substring rules (both scoring 80) and the
positional-similarity rule are each invariant under swapping the
arguments. -/
theorem C10_symmetric (a b : String) : fuzzy_match a b = fuzzy_match b a := by
  rw [fuzzy_match, fuzzy_match, fmCore_comm]

/-- A concrete registry: one customer with a webhook target, one authorized
plate, a 10 second cooldown not currently active, as `init_customers`
provisions it. -/
def c2Registry : Registry :=
  [("test_customer",
    ⟨some "https://webhook.site/test", ["KL07AB1234"], 10, 0, "2026-01-01T00:00:00"⟩)]

/-- Claim C2 (code bug): `trigger_gate` assigns `cooldown_end` BEFORE
testing the HTTP status, so a webhook response with status 500 returns
`False` (the trigger failed) yet still moves `cooldown_end` from 0 to
`now + cooldown_seconds = 1010` — the cooldown is updated on a failed
trigger, contradicting the spec's "cooldown updated iff the trigger
succeeded".  Only a raised transport error (the `.err` outcome) leaves the
registry unchanged, as the last two conjuncts show. -/
theorem C2_cooldown_on_failed_status :
    (trigger_gate c2Registry "test_customer" (.status 500) 1000).success = false ∧
    Registry.get (trigger_gate c2Registry "test_customer" (.status 500) 1000).registry
        "test_customer" =
      some ⟨some "https://webhook.site/test", ["KL07AB1234"], 10, 1010,
        "2026-01-01T00:00:00"⟩ ∧
    Registry.get c2Registry "test_customer" =
      some ⟨some "https://webhook.site/test", ["KL07AB1234"], 10, 0,
        "2026-01-01T00:00:00"⟩ ∧
    (trigger_gate c2Registry "test_customer" .err 1000).success = false ∧
    (trigger_gate c2Registry "test_customer" .err 1000).registry = c2Registry := by
  refine ⟨rfl, ?_, rfl, rfl, rfl⟩
  simp only [trigger_gate, c2Registry, Registry.get, Registry.set]
  norm_num

/-- The registry for the claim C1 runs: one customer, webhook target
present, cooldown inactive. -/
def c1Registry : Registry :=
  [("test_customer",
    ⟨some "https://webhook.site/test", ["KL07AB1234"], 10, 0, "2026-01-01T00:00:00"⟩)]

/-- Two candidates of the same authorized plate (repeated frames of one
vehicle); the webhook POST raises a transport error both times. -/
def c1FailCands : List Cand :=
  [⟨"KL07AB1234", 90, 100, 100, .err⟩, ⟨"KL07AB1234", 91, 101, 101, .err⟩]

/-- Claim C1 counterexample: when the first trigger attempt fails with a
transport error, the cooldown is untouched and `gate_triggered` stays
false, so the next authorized candidate of the SAME request passes the
`is_auth and can_open_gate and not gate_triggered` test again and a second
webhook POST is attempted — two trigger attempts in one request, where the
claim allows at most one. -/
theorem C1_counterexample :
    (detect_plate c1Registry "test_customer" c1FailCands).map DetectState.attempts =
      some 2 ∧
    (is_authorized c1Registry "test_customer" "KL07AB1234").1 = true ∧
    can_open_gate c1Registry "test_customer" 100 = true := by
  refine ⟨?_, by decide, by decide⟩
  decide

/-- Claim C1 (amended): after the first candidate whose trigger attempt
SUCCEEDS, no later candidate of the same request causes another webhook
attempt, cooldown write or registry change, and the request has exactly one
successful trigger; a FAILED attempt, however, does not stop the loop from
attempting again on a later authorized, cooldown-eligible candidate (see
the counterexample). -/
theorem C1_at_most_one_success (r : Registry) (cid : String) (cands extra : List Cand)
    (st st' : DetectState)
    (h : detect_plate r cid cands = some st)
    (h' : detect_plate r cid (cands ++ extra) = some st')
    (htrig : st.gate_triggered = true) :
    st.successes = 1 ∧ st'.successes = 1 ∧ st'.attempts = st.attempts ∧
      st'.cooldownWrites = st.cooldownWrites ∧ st'.registry = st.registry ∧
      st'.matched_plate = st.matched_plate := by
  have hst := detect_plate_eq_foldl r cid cands st h
  have hst' := detect_plate_eq_foldl r cid (cands ++ extra) st' h'
  have hsucc : st.successes = 1 := by
    have hinv := foldl_succ_inv cid cands (initState r) rfl
    rw [← hst] at hinv
    rw [hinv, htrig]
    rfl
  have hext : st' = { st with detected_plates :=
      st.detected_plates ++ extra.map (fun cd => (cd.plate, cd.confidence)) } := by
    rw [hst', List.foldl_append, ← hst]
    exact foldl_detectStep_of_triggered cid extra st htrig
  refine ⟨hsucc, ?_, ?_, ?_, ?_, ?_⟩ <;> rw [hext]
  exact hsucc

/-- The candidate list for the claim C1 witness: one authorized candidate
whose webhook POST returns HTTP 200. -/
def w1Cands : List Cand := [⟨"KL07AB1234", 90, 100, 100, .status 200⟩]

/-- Extra candidates arriving after the successful trigger of `w1Cands`. -/
def w1Extra : List Cand := [⟨"KL07AB1234", 91, 200, 200, .err⟩]

/-- The final state of the `w1Cands` run. -/
def w1St : DetectState :=
  (detect_plate c1Registry "test_customer" w1Cands).getD (initState [])

/-- The final state of the `w1Cands ++ w1Extra` run. -/
def w1St' : DetectState :=
  (detect_plate c1Registry "test_customer" (w1Cands ++ w1Extra)).getD (initState [])

/-- Claim C1 witness: the amended theorem applied to a concrete successful
run and its extension by one more candidate. -/
theorem C1_witness :
    w1St.successes = 1 ∧ w1St'.successes = 1 ∧ w1St'.attempts = w1St.attempts ∧
      w1St'.cooldownWrites = w1St.cooldownWrites ∧ w1St'.registry = w1St.registry ∧
      w1St'.matched_plate = w1St.matched_plate :=
  C1_at_most_one_success c1Registry "test_customer" w1Cands w1Extra w1St w1St'
    rfl rfl (by decide)

/-- The registry for the claim C6 witness. -/
def c6Registry : Registry :=
  [("test_customer",
    ⟨some "https://webhook.site/test", ["KL07AB1234"], 10, 0, "2026-01-01T00:00:00"⟩)]

/-- The customer record `c6Registry` holds. -/
def c6Customer : Customer :=
  ⟨some "https://webhook.site/test", ["KL07AB1234"], 10, 0, "2026-01-01T00:00:00"⟩

/-- Claim C6: `can_open_gate` is true iff the current time strictly exceeds
`cooldown_end` (so `cooldown_end = 0` is always eligible at any positive
time); a successful trigger (HTTP 200) sets `cooldown_end` to the trigger
time plus `cooldown_seconds`; and with `cooldown_seconds = 10` the gate is
closed at `t0 + 5` and open again at `t0 + 10.001`. -/
theorem C6_cooldown_gate (r : Registry) (cid u : String) (c : Customer) (t t0 : ℚ)
    (h : Registry.get r cid = some c) (hu : c.webhook_url = some u) (hu' : u ≠ "") :
    (can_open_gate r cid t = true ↔ c.cooldown_end < t) ∧
    (c.cooldown_end = 0 → 0 < t → can_open_gate r cid t = true) ∧
    Registry.get (trigger_gate r cid (.status 200) t0).registry cid =
      some { c with cooldown_end := t0 + c.cooldown_seconds } ∧
    (c.cooldown_seconds = 10 →
      can_open_gate (trigger_gate r cid (.status 200) t0).registry cid (t0 + 5) = false ∧
      can_open_gate (trigger_gate r cid (.status 200) t0).registry cid (t0 + 10.001)
        = true) := by
  have hiff := can_open_gate_true_iff r cid t c h
  have hset : Registry.get (trigger_gate r cid (.status 200) t0).registry cid =
      some { c with cooldown_end := t0 + c.cooldown_seconds } := by
    simp only [trigger_gate, h, hu, if_neg hu']
    exact Registry.get_set_self _ _ _ c h
  refine ⟨hiff, ?_, hset, ?_⟩
  · intro h0 ht
    exact hiff.mpr (by rw [h0]; exact ht)
  · intro h10
    constructor
    · apply Bool.eq_false_iff.mpr
      intro hcontra
      have hlt := (can_open_gate_true_iff _ cid (t0 + 5) _ hset).mp hcontra
      simp only [h10] at hlt
      have : (10 : ℚ) < 5 := by linarith
      norm_num at this
    · apply (can_open_gate_true_iff _ cid (t0 + 10.001) _ hset).mpr
      simp only [h10]
      have : (10 : ℚ) < 10.001 := by norm_num
      linarith

/-- Claim C6 witness: the cooldown-gate theorem at the concrete registry,
current time 50 and trigger time 1000. -/
theorem C6_witness :
    (can_open_gate c6Registry "test_customer" 50 = true ↔
      c6Customer.cooldown_end < 50) ∧
    (c6Customer.cooldown_end = 0 → 0 < (50 : ℚ) →
      can_open_gate c6Registry "test_customer" 50 = true) ∧
    Registry.get
        (trigger_gate c6Registry "test_customer" (.status 200) 1000).registry
        "test_customer" =
      some { c6Customer with cooldown_end := 1000 + c6Customer.cooldown_seconds } ∧
    (c6Customer.cooldown_seconds = 10 →
      can_open_gate (trigger_gate c6Registry "test_customer" (.status 200) 1000).registry
          "test_customer" (1000 + 5) = false ∧
      can_open_gate (trigger_gate c6Registry "test_customer" (.status 200) 1000).registry
          "test_customer" (1000 + 10.001) = true) :=
  C6_cooldown_gate c6Registry "test_customer" "https://webhook.site/test" c6Customer
    50 1000 rfl rfl (by decide)

/-- Claim C7: over a whole detection request (under a non-decreasing clock
within each iteration and a non-negative `cooldown_seconds`), the tenant's
`cooldown_end` never moves backwards — every iteration leaves it unchanged
or pushes it forward — and a successful trigger sets it to exactly the
trigger time plus `cooldown_seconds`. -/
theorem C7_cooldown_monotone (r : Registry) (cid : String) (c c' : Customer)
    (cands : List Cand) (st : DetectState)
    (h : Registry.get r cid = some c) (hcs : 0 ≤ c.cooldown_seconds)
    (ht : ∀ cd ∈ cands, cd.tCheck ≤ cd.tTrig)
    (hrun : detect_plate r cid cands = some st)
    (h' : Registry.get st.registry cid = some c') :
    c.cooldown_end ≤ c'.cooldown_end ∧ frameOf c' = frameOf c ∧
    (∀ (t : ℚ) (c'' : Customer),
      (trigger_gate r cid (.status 200) t).success = true →
      Registry.get (trigger_gate r cid (.status 200) t).registry cid = some c'' →
      c''.cooldown_end = t + c.cooldown_seconds) := by
  have hst := detect_plate_eq_foldl r cid cands st hrun
  obtain ⟨c2, h2, hle, hf⟩ := foldl_cooldown_mono cid cands (initState r) c h hcs ht
  have hc2 : c' = c2 := by
    rw [hst] at h'
    exact Option.some_inj.mp (h'.symm.trans h2)
  refine ⟨hc2 ▸ hle, hc2 ▸ hf, ?_⟩
  intro t c'' hsucc hget
  cases hu : c.webhook_url with
  | none => simp [trigger_gate, h, hu] at hsucc
  | some u =>
    by_cases hue : u = ""
    · simp [trigger_gate, h, hu, hue] at hsucc
    · rw [trigger_gate] at hget
      simp only [h, hu, if_neg hue] at hget
      rw [Registry.get_set_self _ _ _ c h] at hget
      rw [← Option.some_inj.mp hget]

/-- Claim C7 witness: the monotonicity theorem at the concrete registry
and the empty candidate list (the run that leaves the record as is). -/
theorem C7_witness :
    c6Customer.cooldown_end ≤ c6Customer.cooldown_end ∧
      frameOf c6Customer = frameOf c6Customer ∧
      (∀ (t : ℚ) (c'' : Customer),
        (trigger_gate c6Registry "test_customer" (.status 200) t).success = true →
        Registry.get (trigger_gate c6Registry "test_customer" (.status 200) t).registry
            "test_customer" = some c'' →
        c''.cooldown_end = t + c6Customer.cooldown_seconds) :=
  C7_cooldown_monotone c6Registry "test_customer" c6Customer c6Customer []
    (initState c6Registry) rfl (by decide) (by simp) rfl rfl

/-- Claim C9: a detection request leaves every customer record's
`webhook_url`, `authorized_plates`, `cooldown_seconds` and `created_at`
(and the set of keys of the registry) unchanged — the only field the
detection path can mutate is the cooldown timestamp. -/
theorem C9_detection_frame (r : Registry) (cid : String) (cands : List Cand)
    (st : DetectState) (hrun : detect_plate r cid cands = some st) (cid' : String) :
    (Registry.get st.registry cid').map frameOf = (Registry.get r cid').map frameOf := by
  have hst := detect_plate_eq_foldl r cid cands st hrun
  rw [hst]
  exact foldl_frame cid cands (initState r) cid'

/-- The final state of the claim C9 witness run: one successful trigger,
which does write the cooldown timestamp. -/
def w9St : DetectState :=
  (detect_plate c1Registry "test_customer" [⟨"KL07AB1234", 90, 100, 100, .status 200⟩]).getD
    (initState [])

/-- Claim C9 witness: the frame theorem at a concrete run whose trigger
succeeds (so the registry does change, but only in `cooldown_end`). -/
theorem C9_witness :
    (Registry.get w9St.registry "test_customer").map frameOf =
      (Registry.get c1Registry "test_customer").map frameOf :=
  C9_detection_frame c1Registry "test_customer"
    [⟨"KL07AB1234", 90, 100, 100, .status 200⟩] w9St rfl "test_customer"

end Plate
